import Mathlib

/-!
Verification of the PvP typing-match core (matchmaking queue, Elo calculator,
match finalization, progress fan-out, leaderboard read) against its
natural-language specification.

The TypeScript source is embedded shallowly:
* JS `number` arithmetic on reported stats (wpm, accuracy, scores) is modelled
  exactly with `ℚ`; the Elo formula needs `10 ^ (x / 400)` and is modelled
  over `ℝ` (`Real.rpow`), so the Elo functions are `noncomputable` while the
  rest of the development is executable.
* `Math.round x` is round-half-up, `⌊x + 1/2⌋`; this coincides with Mathlib's
  `round`.
* Timestamps (`Date.now()`, `Date` values) are milliseconds, modelled as `ℤ`;
  a nullable `Date` is an `Option ℤ`.
* A JS `Set` of strings is modelled as a duplicate-free `List String` in
  insertion order; `Set.add` appends when absent, `Set.delete` erases.
* The Mongo documents are passed explicitly: a match document in, the updated
  document out; emitted socket events are returned as lists.  A Mongo
  `find().sort({elo: -1})` is modelled as a stable sort of the collection in
  natural (insertion) order keyed by `elo` descending; the server applies
  `skip` before `limit` regardless of cursor-call order.
* The `tryMatch` pair-off loop performs one storage call (`createMatch`) per
  iteration; the success or failure of each call is supplied by an oracle
  `List Bool`, one entry per attempted iteration, which also bounds the
  recursion.
-/

/-- JS `Math.round`: round half toward positive infinity. -/
noncomputable def jsRound (x : ℝ) : ℤ := ⌊x + 1 / 2⌋

/-- Constant `K_FACTOR` from `elo.utils.ts`. -/
def K_FACTOR : ℝ := 32

/-- Function `getExpectedScore` from `elo.utils.ts`:
`1 / (1 + 10 ^ (ratingDiff / 400))` with `ratingDiff = opponentRating - playerRating`. -/
noncomputable def getExpectedScore (playerRating opponentRating : ℝ) : ℝ :=
  1 / (1 + (10 : ℝ) ^ ((opponentRating - playerRating) / 400))

/-- Function `calculateEloChange` from `elo.utils.ts`:
`Math.round(K_FACTOR * (result - expected))`. -/
noncomputable def calculateEloChange (playerRating opponentRating result : ℝ) : ℤ :=
  jsRound (K_FACTOR * (result - getExpectedScore playerRating opponentRating))

/-- Function `calculateNewRating` from `elo.utils.ts`:
`Math.max(0, Math.round(currentRating + change))`.  This is the only place in
the repository that floors a rating at 0; the finalization path never calls
it. -/
noncomputable def calculateNewRating (currentRating opponentRating result : ℝ) : ℤ :=
  max 0 (jsRound (currentRating + (calculateEloChange currentRating opponentRating result : ℤ)))

/-- Match status values from `@monkeytype/contracts/pvp`. -/
inductive MatchStatus
  | active
  | completed
  | cancelled
deriving DecidableEq, Repr

/-- A `pvp_matches` document (`PvPMatch` in the contracts package). -/
structure PvPMatchDoc where
  matchId : String
  player1Id : String
  player1Username : String
  player2Id : String
  player2Username : String
  player1Wpm : ℚ
  player1Accuracy : ℚ
  player2Wpm : ℚ
  player2Accuracy : ℚ
  winnerId : Option String
  winnerName : Option String
  player1EloChange : ℤ
  player2EloChange : ℤ
  matchDuration : ℤ
  status : MatchStatus
  createdAt : ℤ
  completedAt : Option ℤ
deriving DecidableEq, Repr

/-- A `pvp_rankings` document (`PvPRanking` in the contracts package). -/
structure PvPRanking where
  userId : String
  username : String
  elo : ℤ
  wins : ℕ
  losses : ℕ
  matchesPlayed : ℕ
  lastMatchAt : Option ℤ
  createdAt : ℤ
  updatedAt : ℤ
deriving DecidableEq, Repr

/-- A matchmaking queue entry (`QueueEntry` in `pvp-queue.service.ts`). -/
structure QueueEntry where
  userId : String
  username : String
  socketId : String
  joinedAt : ℤ
deriving DecidableEq, Repr

/-- The private state of the `PvPQueue` class: the ordered entry list plus the
companion `userInQueue` membership set (modelled as a duplicate-free list in
insertion order). -/
structure QueueState where
  queue : List QueueEntry
  userInQueue : List String
deriving DecidableEq, Repr

/-- JS `Set.add`: a no-op when the element is present, else appended. -/
def setAdd (s : List String) (u : String) : List String :=
  if u ∈ s then s else s ++ [u]

/-- JS `Set.delete`: removes the element (the single occurrence, as the list
is duplicate-free). -/
def setDelete (s : List String) (u : String) : List String := s.erase u

/-- Method `PvPQueue.join`: if the user is already in the queue, return the current
queue size and change nothing; otherwise append an entry, add the userId to
the membership set, and return the new size.  The `tryMatch` pair-off the
source then fires asynchronously is modelled as the separate step
`tryMatchModel`. -/
def joinModel (st : QueueState) (userId username socketId : String) (now : ℤ) :
    ℕ × QueueState :=
  if userId ∈ st.userInQueue then
    (st.queue.length, st)
  else
    let entry : QueueEntry := ⟨userId, username, socketId, now⟩
    let q1 := st.queue ++ [entry]
    (q1.length, ⟨q1, setAdd st.userInQueue userId⟩)

/-- Method `PvPQueue.tryMatch`: while the queue holds at least two entries, pop the
two oldest, delete both userIds from the membership set, and attempt
`createMatch`.  On success (oracle entry `true`) the pair is recorded (the
match row is inserted and `match_found` is emitted to both players); on
failure the catch block runs `queue.push(player1, player2)` — appending both
entries at the tail — re-adds both userIds to the set, and the loop
continues.  Returns the final state and the successfully created pairs. -/
def tryMatchModel : List Bool → QueueState → QueueState × List (QueueEntry × QueueEntry)
  | [], st => (st, [])
  | ok :: rest, st =>
    match st.queue with
    | player1 :: player2 :: tl =>
      let s1 : QueueState :=
        ⟨tl, setDelete (setDelete st.userInQueue player1.userId) player2.userId⟩
      if ok then
        let res := tryMatchModel rest s1
        (res.1, (player1, player2) :: res.2)
      else
        tryMatchModel rest
          ⟨s1.queue ++ [player1, player2],
            setAdd (setAdd s1.userInQueue player1.userId) player2.userId⟩
    | _ => (st, [])

/-- Well-formedness of the queue state: entry userIds are duplicate-free and
the membership set holds exactly the queued userIds. -/
def QueueWF (st : QueueState) : Prop :=
  (st.queue.map QueueEntry.userId).Nodup ∧
  st.userInQueue.Perm (st.queue.map QueueEntry.userId)

instance (st : QueueState) : Decidable (QueueWF st) := by
  unfold QueueWF
  infer_instance

/-- An `opponent_progress` emission produced by `handleProgressUpdate`. -/
structure ProgressEmission where
  target : String
  matchId : String
  opponentWpm : ℚ
  opponentAccuracy : ℚ
  timestamp : ℤ
deriving DecidableEq, Repr

/-- Function `handleProgressUpdate` from `pvp-match.service.ts`: on an active match,
store the sender's stats in the sender's wpm/accuracy columns and emit
`opponent_progress` to the other player; on a non-active match, discard. -/
def handleProgressUpdate (m : PvPMatchDoc) (userId : String) (wpm accuracy : ℚ)
    (now : ℤ) : PvPMatchDoc × List ProgressEmission :=
  if m.status ≠ MatchStatus.active then (m, [])
  else
    let m1 :=
      if userId = m.player1Id then
        { m with player1Wpm := wpm, player1Accuracy := accuracy }
      else if userId = m.player2Id then
        { m with player2Wpm := wpm, player2Accuracy := accuracy }
      else m
    let opponentId := if userId = m.player1Id then m.player2Id else m.player1Id
    (m1, [⟨opponentId, m.matchId, wpm, accuracy, now⟩])

/-- Function `handleMatchComplete` from `pvp-match.service.ts`: on an active match,
store the sender's final stats, then re-read the document and trigger
`finalizeMatch` iff `player1Wpm > 0 && player2Wpm > 0`.  Returns the updated
document and whether finalization was triggered. -/
def handleMatchComplete (m : PvPMatchDoc) (userId : String)
    (finalWpm finalAccuracy : ℚ) : PvPMatchDoc × Bool :=
  if m.status ≠ MatchStatus.active then (m, false)
  else
    let m1 :=
      if userId = m.player1Id then
        { m with player1Wpm := finalWpm, player1Accuracy := finalAccuracy }
      else if userId = m.player2Id then
        { m with player2Wpm := finalWpm, player2Accuracy := finalAccuracy }
      else m
    (m1, decide (0 < m1.player1Wpm ∧ 0 < m1.player2Wpm))

/-- The effects of `finalizeMatch`: the Elo deltas, the two ranking
post-images written by `updateRanking`, and the persisted match document. -/
structure FinalizeOutcome where
  winnerId : Option String
  winnerName : Option String
  player1EloChange : ℤ
  player2EloChange : ℤ
  ranking1 : PvPRanking
  ranking2 : PvPRanking
  matchDuration : ℤ
  matchDoc : PvPMatchDoc
deriving Repr

/-- Function `finalizeMatch` from `pvp-match.service.ts`, as a function of the match
document read at entry (`m`), the two rankings read for the Elo calculation
(`r1`, `r2`) and the wall clock `now` (the service's `new Date()`).  Scores
are `wpm * 0.8 + accuracy * 0.2`; strictly higher score wins, otherwise the
winner is null.  Elo deltas come from `calculateEloChange`; rankings are
updated with `elo + change` (no floor), win/loss/match counters and
`lastMatchAt` (the DAL also stamps `updatedAt`).  `matchDuration` uses
`m.completedAt` — the value in the pre-update snapshot — and falls back to
the constant 60 when it is null. -/
noncomputable def finalizeMatch (m : PvPMatchDoc) (r1 r2 : PvPRanking) (now : ℤ) :
    FinalizeOutcome :=
  let player1Score : ℚ := m.player1Wpm * 0.8 + m.player1Accuracy * 0.2
  let player2Score : ℚ := m.player2Wpm * 0.8 + m.player2Accuracy * 0.2
  let winnerId : Option String :=
    if player1Score > player2Score then some m.player1Id
    else if player2Score > player1Score then some m.player2Id
    else none
  let winnerName : Option String :=
    if player1Score > player2Score then some m.player1Username
    else if player2Score > player1Score then some m.player2Username
    else none
  let p1Result : ℝ :=
    if winnerId = some m.player1Id then 1
    else if winnerId = some m.player2Id then 0
    else 0.5
  let p2Result : ℝ :=
    if winnerId = some m.player2Id then 1
    else if winnerId = some m.player1Id then 0
    else 0.5
  let p1EloChange := calculateEloChange (r1.elo : ℝ) (r2.elo : ℝ) p1Result
  let p2EloChange := calculateEloChange (r2.elo : ℝ) (r1.elo : ℝ) p2Result
  let matchDuration : ℤ :=
    match m.completedAt with
    | some t => Int.fdiv (t - m.createdAt) 1000
    | none => 60
  { winnerId := winnerId
    winnerName := winnerName
    player1EloChange := p1EloChange
    player2EloChange := p2EloChange
    ranking1 :=
      { r1 with
        elo := r1.elo + p1EloChange
        wins := if winnerId = some m.player1Id then r1.wins + 1 else r1.wins
        losses :=
          if winnerId ≠ some m.player1Id ∧ winnerId ≠ none then r1.losses + 1
          else r1.losses
        matchesPlayed := r1.matchesPlayed + 1
        lastMatchAt := some now
        updatedAt := now }
    ranking2 :=
      { r2 with
        elo := r2.elo + p2EloChange
        wins := if winnerId = some m.player2Id then r2.wins + 1 else r2.wins
        losses :=
          if winnerId ≠ some m.player2Id ∧ winnerId ≠ none then r2.losses + 1
          else r2.losses
        matchesPlayed := r2.matchesPlayed + 1
        lastMatchAt := some now
        updatedAt := now }
    matchDuration := matchDuration
    matchDoc :=
      { m with
        winnerId := winnerId
        winnerName := winnerName
        player1EloChange := p1EloChange
        player2EloChange := p2EloChange
        matchDuration := matchDuration
        status := MatchStatus.completed
        completedAt := some now } }

/-- Function `getLeaderboard` from the PvP DAL: `find({}).sort({elo: -1})`, `skip`,
`limit`, paired with `countDocuments({})`.  The sort key is `elo` descending
only; ties keep the collection's natural order (stable sort). -/
def getLeaderboard (limit offset : ℕ) (col : List PvPRanking) :
    List PvPRanking × ℕ :=
  (((col.insertionSort (fun a b => b.elo ≤ a.elo)).drop offset).take limit,
    col.length)

/-- Modelled from the spec: the leaderboard order the spec asserts — `elo`
descending with ties broken by `updatedAt` ascending (older account first). -/
def specLeaderboardOrder (col : List PvPRanking) : List PvPRanking :=
  col.insertionSort
    (fun a b => b.elo < a.elo ∨ (a.elo = b.elo ∧ a.updatedAt ≤ b.updatedAt))

/-! Concrete fixtures used by counterexamples and witnesses. -/

/-- Queue entry fixture. -/
def queueEntryA : QueueEntry := ⟨"userA", "A", "sockA", 0⟩

/-- Queue entry fixture. -/
def queueEntryB : QueueEntry := ⟨"userB", "B", "sockB", 1⟩

/-- Queue entry fixture. -/
def queueEntryC : QueueEntry := ⟨"userC", "C", "sockC", 2⟩

/-- A well-formed queue holding A, B, C in FIFO order. -/
def queueStateABC : QueueState :=
  ⟨[queueEntryA, queueEntryB, queueEntryC], ["userA", "userB", "userC"]⟩

/-- An active match fixture (scenario S1 stats). -/
def matchS1 : PvPMatchDoc :=
  ⟨"m1", "userA", "A", "userB", "B", 80, 95, 70, 97, none, none, 0, 0, 0,
    MatchStatus.active, 0, none⟩

/-- An active match fixture with identical final stats for both players
(scenario S2: both 50 wpm, 90 accuracy — a draw). -/
def matchS2 : PvPMatchDoc :=
  ⟨"m2", "userA", "A", "userB", "B", 50, 90, 50, 90, none, none, 0, 0, 0,
    MatchStatus.active, 0, none⟩

/-- An active match fixture in which player 1 loses (10 wpm, 50 accuracy
against 50 wpm, 90 accuracy). -/
def matchP1Loses : PvPMatchDoc :=
  ⟨"m3", "userA", "A", "userB", "B", 10, 50, 50, 90, none, none, 0, 0, 0,
    MatchStatus.active, 0, none⟩

/-- A ranking fixture at the rating floor. -/
def rankingZeroA : PvPRanking := ⟨"userA", "A", 0, 0, 0, 0, none, 0, 0⟩

/-- A ranking fixture at the rating floor. -/
def rankingZeroB : PvPRanking := ⟨"userB", "B", 0, 0, 0, 0, none, 0, 0⟩

/-- A ranking fixture at 1500 Elo. -/
def ranking1500A : PvPRanking := ⟨"userA", "A", 1500, 0, 0, 0, none, 0, 0⟩

/-- A ranking fixture at 1500 Elo. -/
def ranking1500B : PvPRanking := ⟨"userB", "B", 1500, 0, 0, 0, none, 0, 0⟩

/-- Leaderboard fixture: elo 100, updated at time 5. -/
def lbRankingLaterUpdate : PvPRanking := ⟨"user1", "U1", 100, 0, 0, 0, none, 0, 5⟩

/-- Leaderboard fixture: elo 100, updated at time 3 (older account). -/
def lbRankingOlderUpdate : PvPRanking := ⟨"user2", "U2", 100, 0, 0, 0, none, 0, 3⟩

/-! Helper lemmas. -/

theorem jsRound_eq_round (x : ℝ) : jsRound x = round x := by
  rw [jsRound, round_eq]

/-! Claims and their supporting lemmas. -/

/-- Claim C1: for every pair of ratings and every result,
`calculateEloChange playerRating opponentRating result` returns
`round (K * (result - expected))` with `K = 32` and
`expected = 1 / (1 + 10 ^ ((opponentRating - playerRating) / 400))`; the
returned value is a signed integer (the codomain is `ℤ`).  This holds for
all real results, in particular for `result ∈ {0, 0.5, 1}`. -/
theorem calculateEloChange_spec (playerRating opponentRating result : ℝ) :
    calculateEloChange playerRating opponentRating result =
      round ((32 : ℝ) *
        (result - 1 / (1 + (10 : ℝ) ^ ((opponentRating - playerRating) / 400)))) := by
  rw [calculateEloChange, jsRound_eq_round, K_FACTOR, getExpectedScore]

/-- Claim C8: on an active match whose players are distinct, a progress
event from either party produces exactly one `opponent_progress` emission,
targeted at the other party (never the sender), carrying the sender's wpm
and accuracy. -/
theorem handleProgressUpdate_fanout (m : PvPMatchDoc) (u : String) (w a : ℚ)
    (t : ℤ) (hact : m.status = MatchStatus.active)
    (hne : m.player1Id ≠ m.player2Id)
    (hu : u = m.player1Id ∨ u = m.player2Id) :
    (handleProgressUpdate m u w a t).2 =
      [⟨if u = m.player1Id then m.player2Id else m.player1Id,
        m.matchId, w, a, t⟩] ∧
    ∀ e ∈ (handleProgressUpdate m u w a t).2,
      e.target ≠ u ∧ (e.target = m.player1Id ∨ e.target = m.player2Id) ∧
        e.opponentWpm = w ∧ e.opponentAccuracy = a := by
  rcases hu with hu | hu
  · constructor
    · simp [handleProgressUpdate, hact, hu]
    · intro e he
      simp only [handleProgressUpdate, hact, ne_eq, not_true_eq_false,
        if_false, if_pos hu, List.mem_singleton] at he
      subst he
      refine ⟨?_, Or.inr rfl, rfl, rfl⟩
      rw [hu]
      exact fun h => hne h.symm
  · have hne2 : u ≠ m.player1Id := fun h => hne (h.symm.trans hu)
    constructor
    · simp [handleProgressUpdate, hact, hne2]
    · intro e he
      simp only [handleProgressUpdate, hact, ne_eq, not_true_eq_false,
        if_false, if_neg hne2, List.mem_singleton] at he
      subst he
      exact ⟨fun h => hne2 h.symm, Or.inl rfl, rfl, rfl⟩

/-- Witness for C8: player A of the S1 match sends progress; the single
emission targets player B. -/
theorem handleProgressUpdate_fanout_witness :
    (handleProgressUpdate matchS1 "userA" 80 95 10).2 =
      [⟨if "userA" = matchS1.player1Id then matchS1.player2Id
        else matchS1.player1Id, matchS1.matchId, 80, 95, 10⟩] :=
  (handleProgressUpdate_fanout matchS1 "userA" 80 95 10 rfl (by decide)
    (Or.inl rfl)).1

/-- Claim C10: on an active match, `handleMatchComplete` triggers
finalization iff both stored wpm values are strictly positive; the reported
accuracy is never consulted (the trigger is invariant under it), and a
party reporting a final wpm of 0 never releases the barrier. -/
theorem handleMatchComplete_barrier (m : PvPMatchDoc) (u : String) (w a : ℚ)
    (hact : m.status = MatchStatus.active) :
    ((handleMatchComplete m u w a).2 = true ↔
      (0 < (handleMatchComplete m u w a).1.player1Wpm ∧
        0 < (handleMatchComplete m u w a).1.player2Wpm)) ∧
    (∀ a2 : ℚ, (handleMatchComplete m u w a2).2 = (handleMatchComplete m u w a).2) ∧
    ((u = m.player1Id ∨ u = m.player2Id) → w = 0 →
      (handleMatchComplete m u w a).2 = false) := by
  refine ⟨?_, ?_, ?_⟩
  · simp only [handleMatchComplete, hact]
    by_cases h1 : u = m.player1Id <;> by_cases h2 : u = m.player2Id <;>
      simp [h1, h2, decide_eq_true_iff]
  · intro a2
    simp only [handleMatchComplete, hact]
    by_cases h1 : u = m.player1Id <;> by_cases h2 : u = m.player2Id <;>
      by_cases h12 : m.player2Id = m.player1Id <;> simp [h1, h2, h12]
  · rintro (h1 | h2) hw
    · simp [handleMatchComplete, hact, h1, hw]
    · by_cases h1 : u = m.player1Id
      · simp [handleMatchComplete, hact, h1, hw]
      · by_cases h12 : m.player2Id = m.player1Id <;>
          simp [handleMatchComplete, hact, h1, h2, h12, hw]

/-- Witness for C10: on the S1 match, player A reporting a final wpm of 0
does not trigger finalization. -/
theorem handleMatchComplete_barrier_witness :
    (handleMatchComplete matchS1 "userA" 0 100).2 = false :=
  (handleMatchComplete_barrier matchS1 "userA" 0 100 rfl).2.2 (Or.inl rfl) rfl

/-- `tryMatch` on an empty queue is a no-op creating no matches. -/
theorem tryMatchModel_nil_queue (oracle : List Bool) (s : List String) :
    tryMatchModel oracle ⟨[], s⟩ = (⟨[], s⟩, []) := by
  cases oracle <;> rfl

/-- Claim C7: a userId occurs at most once in the queue.  A `join` for a
user already in the membership set is a no-op returning the current queue
size; `join` preserves well-formedness (hence the no-duplicates invariant),
and a pair-off on a two-entry queue creates exactly one match. -/
theorem pvpQueue_join_unique (st : QueueState) (u un sk : String) (now : ℤ)
    (hwf : QueueWF st) :
    (u ∈ st.userInQueue → joinModel st u un sk now = (st.queue.length, st)) ∧
    QueueWF (joinModel st u un sk now).2 ∧
    ((joinModel st u un sk now).2.queue.map QueueEntry.userId).Nodup ∧
    (∀ (oracle : List Bool) (e1 e2 : QueueEntry) (s : List String),
      (tryMatchModel (true :: oracle) ⟨[e1, e2], s⟩).2.length = 1) := by
  have hwf2 : QueueWF (joinModel st u un sk now).2 := by
    by_cases hmem : u ∈ st.userInQueue
    · simpa [joinModel, hmem] using hwf
    · have hu_notin : u ∉ st.queue.map QueueEntry.userId :=
        fun hin => hmem (hwf.2.mem_iff.mpr hin)
      simp only [joinModel, hmem, if_false, ite_false]
      refine ⟨?_, ?_⟩
      · simpa [List.nodup_append, hwf.1] using hu_notin
      · simp only [setAdd, hmem, if_false, ite_false, List.map_append]
        exact hwf.2.append_right [u]
  refine ⟨fun hmem => by simp [joinModel, hmem], hwf2, hwf2.1, ?_⟩
  intro oracle e1 e2 s
  simp [tryMatchModel, tryMatchModel_nil_queue]

/-- Witness for C7: a duplicate join on a one-entry queue returns size 1 and
leaves the state unchanged. -/
theorem pvpQueue_join_unique_witness :
    joinModel ⟨[queueEntryA], ["userA"]⟩ "userA" "A" "sockA2" 5 =
      (1, ⟨[queueEntryA], ["userA"]⟩) :=
  (pvpQueue_join_unique ⟨[queueEntryA], ["userA"]⟩ "userA" "A" "sockA2" 5
    (by decide)).1 (by decide)

/-- Counterexample for C5: with queue `[A, B, C]`, a failed `createMatch`
leaves the queue as `[C, A, B]` — the popped pair is re-appended at the
tail, not reinserted at the head — and pair-off does not stop: with the
next attempt succeeding, a match is still created in the same round. -/
theorem tryMatch_rollback_counterexample :
    (tryMatchModel [false] queueStateABC).1.queue =
        [queueEntryC, queueEntryA, queueEntryB] ∧
    (tryMatchModel [false] queueStateABC).1.queue ≠ queueStateABC.queue ∧
    (tryMatchModel [false, true] queueStateABC).2.length = 1 := by
  decide

/-- Claim C5 (amended): if `createMatch` fails, the two popped entries are
re-appended at the tail of the queue in their original relative order, the
membership set is restored up to permutation (both userIds re-added), no
match is recorded for the failed attempt, and the pair-off loop continues
with the remaining oracle. -/
theorem tryMatch_rollback_amended (st : QueueState) (rest : List Bool)
    (player1 player2 : QueueEntry) (tl : List QueueEntry)
    (hq : st.queue = player1 :: player2 :: tl) (hwf : QueueWF st) :
    tryMatchModel (false :: rest) st =
      tryMatchModel rest
        ⟨tl ++ [player1, player2],
          setAdd (setAdd (setDelete (setDelete st.userInQueue player1.userId)
            player2.userId) player1.userId) player2.userId⟩ ∧
    (setAdd (setAdd (setDelete (setDelete st.userInQueue player1.userId)
        player2.userId) player1.userId) player2.userId).Perm st.userInQueue := by
  obtain ⟨q, s⟩ := st
  simp only at hq
  subst hq
  obtain ⟨hnd, hperm⟩ := hwf
  simp only at hnd hperm ⊢
  constructor
  · rfl
  · rw [List.map_cons, List.map_cons] at hnd hperm
    set u1 := player1.userId with hu1
    set u2 := player2.userId with hu2
    have h12 : u1 ≠ u2 := by
      intro h
      have hn := (List.nodup_cons.mp hnd).1
      rw [h] at hn
      exact hn (List.mem_cons_self u2 _)
    have hs : s.Nodup := hperm.nodup_iff.mpr hnd
    have hu1s : u1 ∈ s := hperm.mem_iff.mpr (List.mem_cons_self u1 _)
    have hu2s : u2 ∈ s := hperm.mem_iff.mpr
      (List.mem_cons_of_mem _ (List.mem_cons_self u2 _))
    have hu1e : u1 ∉ (s.erase u1).erase u2 :=
      fun h => hs.not_mem_erase (List.erase_subset _ _ h)
    have hu2e : u2 ∉ (s.erase u1).erase u2 :=
      fun h => (hs.erase u1).not_mem_erase h
    have hadd1 : setAdd ((s.erase u1).erase u2) u1 =
        (s.erase u1).erase u2 ++ [u1] := by
      simp [setAdd, hu1e]
    have hadd2 : setAdd ((s.erase u1).erase u2 ++ [u1]) u2 =
        (s.erase u1).erase u2 ++ [u1] ++ [u2] := by
      have : u2 ∉ (s.erase u1).erase u2 ++ [u1] := by
        simp [hu2e, h12.symm]
      simp [setAdd, this]
    rw [setDelete, setDelete, hadd1, hadd2]
    have hperm1 : List.Perm s (u1 :: s.erase u1) := List.perm_cons_erase hu1s
    have hperm2 : List.Perm (s.erase u1) (u2 :: (s.erase u1).erase u2) :=
      List.perm_cons_erase ((List.mem_erase_of_ne h12.symm).mpr hu2s)
    have hstep1 : List.Perm ((s.erase u1).erase u2 ++ [u1] ++ [u2])
        (u1 :: u2 :: (s.erase u1).erase u2) := by
      rw [List.append_assoc]
      exact List.perm_append_comm
    have hstep2 : List.Perm (u1 :: u2 :: (s.erase u1).erase u2) s :=
      ((hperm2.symm).cons u1).trans hperm1.symm
    exact hstep1.trans hstep2

/-- Witness for C5 (amended) at the concrete queue `[A, B, C]` with a
failing first attempt. -/
theorem tryMatch_rollback_amended_witness :
    tryMatchModel [false] queueStateABC =
      tryMatchModel []
        ⟨[queueEntryC] ++ [queueEntryA, queueEntryB],
          setAdd (setAdd (setDelete (setDelete queueStateABC.userInQueue
            queueEntryA.userId) queueEntryB.userId) queueEntryA.userId)
            queueEntryB.userId⟩ ∧
    (setAdd (setAdd (setDelete (setDelete queueStateABC.userInQueue
        queueEntryA.userId) queueEntryB.userId) queueEntryA.userId)
        queueEntryB.userId).Perm queueStateABC.userInQueue :=
  tryMatch_rollback_amended queueStateABC [] queueEntryA queueEntryB
    [queueEntryC] rfl (by decide)

/-- Counterexample for C9: two rankings with equal `elo` where the later
collection entry has the older `updatedAt`.  The code sorts by `elo`
descending only, so ties keep collection order; the spec's
`updatedAt`-ascending tie-break would swap them. -/
theorem getLeaderboard_counterexample :
    getLeaderboard 50 0 [lbRankingLaterUpdate, lbRankingOlderUpdate] ≠
      (((specLeaderboardOrder
          [lbRankingLaterUpdate, lbRankingOlderUpdate]).drop 0).take 50,
        ([lbRankingLaterUpdate, lbRankingOlderUpdate] : List PvPRanking).length) := by
  decide

/-- Claim C9 (amended): `getLeaderboard limit offset col` returns the
`offset`/`limit` slice of the collection sorted by `elo` descending only —
ties keep the collection's natural order and `updatedAt` is not consulted —
together with the total count of rankings. -/
theorem getLeaderboard_amended (limit offset : ℕ) (col : List PvPRanking) :
    List.Sorted (fun a b => b.elo ≤ a.elo) (getLeaderboard limit offset col).1 ∧
    ((getLeaderboard limit offset col).1).Sublist
      (col.insertionSort (fun a b => b.elo ≤ a.elo)) ∧
    (col.insertionSort (fun a b => b.elo ≤ a.elo)).Perm col ∧
    (getLeaderboard limit offset col).2 = col.length := by
  haveI hTot : IsTotal PvPRanking (fun a b => b.elo ≤ a.elo) :=
    ⟨fun a b => le_total b.elo a.elo⟩
  haveI hTrans : IsTrans PvPRanking (fun a b => b.elo ≤ a.elo) :=
    ⟨fun _ _ _ hab hbc => le_trans hbc hab⟩
  have hsub : ((getLeaderboard limit offset col).1).Sublist
      (col.insertionSort (fun a b => b.elo ≤ a.elo)) :=
    (List.take_sublist _ _).trans (List.drop_sublist _ _)
  exact ⟨List.Pairwise.sublist hsub (List.sorted_insertionSort _ col), hsub,
    List.perm_insertionSort _ _, rfl⟩

/-- The winner computed by `finalizeMatch`, by definitional unfolding. -/
theorem finalizeMatch_winnerId_eq (m : PvPMatchDoc) (r1 r2 : PvPRanking)
    (now : ℤ) :
    (finalizeMatch m r1 r2 now).winnerId =
      (if m.player1Wpm * 0.8 + m.player1Accuracy * 0.2 >
          m.player2Wpm * 0.8 + m.player2Accuracy * 0.2 then some m.player1Id
       else if m.player2Wpm * 0.8 + m.player2Accuracy * 0.2 >
          m.player1Wpm * 0.8 + m.player1Accuracy * 0.2 then some m.player2Id
       else none) := rfl

/-- The Elo delta applied to player 1's ranking, by definitional unfolding. -/
theorem finalizeMatch_ranking1_elo (m : PvPMatchDoc) (r1 r2 : PvPRanking)
    (now : ℤ) :
    (finalizeMatch m r1 r2 now).ranking1.elo =
      r1.elo + calculateEloChange (r1.elo : ℝ) (r2.elo : ℝ)
        (if (finalizeMatch m r1 r2 now).winnerId = some m.player1Id then 1
         else if (finalizeMatch m r1 r2 now).winnerId = some m.player2Id then 0
         else 0.5) := rfl

/-- Claim C3: `finalizeMatch` selects the winner by the weighted score
`0.8·wpm + 0.2·accuracy`; the strictly higher score wins, and equal scores
yield a draw (`winnerId = none`) in which both match counters are
incremented and neither wins nor losses changes. -/
theorem finalizeMatch_winner_selection (m : PvPMatchDoc) (r1 r2 : PvPRanking)
    (now : ℤ) :
    (0.8 * m.player1Wpm + 0.2 * m.player1Accuracy >
        0.8 * m.player2Wpm + 0.2 * m.player2Accuracy →
      (finalizeMatch m r1 r2 now).winnerId = some m.player1Id) ∧
    (0.8 * m.player2Wpm + 0.2 * m.player2Accuracy >
        0.8 * m.player1Wpm + 0.2 * m.player1Accuracy →
      (finalizeMatch m r1 r2 now).winnerId = some m.player2Id) ∧
    (0.8 * m.player1Wpm + 0.2 * m.player1Accuracy =
        0.8 * m.player2Wpm + 0.2 * m.player2Accuracy →
      (finalizeMatch m r1 r2 now).winnerId = none ∧
      (finalizeMatch m r1 r2 now).ranking1.matchesPlayed = r1.matchesPlayed + 1 ∧
      (finalizeMatch m r1 r2 now).ranking2.matchesPlayed = r2.matchesPlayed + 1 ∧
      (finalizeMatch m r1 r2 now).ranking1.wins = r1.wins ∧
      (finalizeMatch m r1 r2 now).ranking1.losses = r1.losses ∧
      (finalizeMatch m r1 r2 now).ranking2.wins = r2.wins ∧
      (finalizeMatch m r1 r2 now).ranking2.losses = r2.losses) := by
  refine ⟨fun h => ?_, fun h => ?_, fun h => ?_⟩
  · rw [finalizeMatch_winnerId_eq, if_pos (by linarith)]
  · rw [finalizeMatch_winnerId_eq, if_neg (by linarith), if_pos (by linarith)]
  · have hnone : (finalizeMatch m r1 r2 now).winnerId = none := by
      rw [finalizeMatch_winnerId_eq, if_neg (by linarith), if_neg (by linarith)]
    refine ⟨hnone, rfl, rfl, ?_, ?_, ?_, ?_⟩
    · have hw : (finalizeMatch m r1 r2 now).ranking1.wins =
          if (finalizeMatch m r1 r2 now).winnerId = some m.player1Id then
            r1.wins + 1 else r1.wins := rfl
      rw [hw, hnone]
      simp
    · have hl : (finalizeMatch m r1 r2 now).ranking1.losses =
          if (finalizeMatch m r1 r2 now).winnerId ≠ some m.player1Id ∧
              (finalizeMatch m r1 r2 now).winnerId ≠ none then
            r1.losses + 1 else r1.losses := rfl
      rw [hl, hnone]
      simp
    · have hw : (finalizeMatch m r1 r2 now).ranking2.wins =
          if (finalizeMatch m r1 r2 now).winnerId = some m.player2Id then
            r2.wins + 1 else r2.wins := rfl
      rw [hw, hnone]
      simp
    · have hl : (finalizeMatch m r1 r2 now).ranking2.losses =
          if (finalizeMatch m r1 r2 now).winnerId ≠ some m.player2Id ∧
              (finalizeMatch m r1 r2 now).winnerId ≠ none then
            r2.losses + 1 else r2.losses := rfl
      rw [hl, hnone]
      simp

/-- Witness for C3 at scenario S2: both players submit 50 wpm, 90 accuracy;
the match is a draw, both match counters increment, wins and losses do not. -/
theorem finalizeMatch_winner_selection_witness :
    (finalizeMatch matchS2 ranking1500A ranking1500B 61000).winnerId = none ∧
    (finalizeMatch matchS2 ranking1500A ranking1500B 61000).ranking1.matchesPlayed =
      ranking1500A.matchesPlayed + 1 ∧
    (finalizeMatch matchS2 ranking1500A ranking1500B 61000).ranking2.matchesPlayed =
      ranking1500B.matchesPlayed + 1 ∧
    (finalizeMatch matchS2 ranking1500A ranking1500B 61000).ranking1.wins =
      ranking1500A.wins ∧
    (finalizeMatch matchS2 ranking1500A ranking1500B 61000).ranking1.losses =
      ranking1500A.losses ∧
    (finalizeMatch matchS2 ranking1500A ranking1500B 61000).ranking2.wins =
      ranking1500B.wins ∧
    (finalizeMatch matchS2 ranking1500A ranking1500B 61000).ranking2.losses =
      ranking1500B.losses :=
  (finalizeMatch_winner_selection matchS2 ranking1500A ranking1500B 61000).2.2
    (by norm_num [matchS2])

/-- Expected score at equal ratings is one half. -/
theorem getExpectedScore_self (rating : ℝ) :
    getExpectedScore rating rating = 1 / 2 := by
  rw [getExpectedScore, sub_self, zero_div, Real.rpow_zero]
  norm_num

/-- Elo delta at equal ratings. -/
theorem calculateEloChange_self (rating result : ℝ) :
    calculateEloChange rating rating result = ⌊32 * (result - 1 / 2) + 1 / 2⌋ := by
  rw [calculateEloChange, jsRound, getExpectedScore_self, K_FACTOR]

/-- Claim C2 (code bug evaluation): when player 1 is at elo 0 and loses,
`finalizeMatch` persists `elo = 0 + (-16) = -16`, a negative rating, whereas
the repository's own `calculateNewRating` (the documented floor, never
called by the finalization path) yields `max 0 (0 - 16) = 0`. -/
theorem finalizeMatch_negative_elo :
    (finalizeMatch matchP1Loses rankingZeroA rankingZeroB 60000).ranking1.elo = -16 ∧
    (finalizeMatch matchP1Loses rankingZeroA rankingZeroB 60000).ranking1.elo < 0 ∧
    calculateNewRating 0 0 0 = 0 := by
  have hfloor : (⌊(-31 / 2 : ℝ)⌋ : ℤ) = -16 := by
    rw [Int.floor_eq_iff]
    constructor <;> norm_num
  have hchange : calculateEloChange 0 0 0 = -16 := by
    rw [calculateEloChange_self]
    have harg : (32 : ℝ) * (0 - 1 / 2) + 1 / 2 = -31 / 2 := by norm_num
    rw [harg, hfloor]
  have hwin : (finalizeMatch matchP1Loses rankingZeroA rankingZeroB 60000).winnerId =
      some "userB" := by
    rw [finalizeMatch_winnerId_eq]
    norm_num [matchP1Loses]
  have helo : (finalizeMatch matchP1Loses rankingZeroA rankingZeroB 60000).ranking1.elo =
      rankingZeroA.elo + calculateEloChange (rankingZeroA.elo : ℝ) (rankingZeroB.elo : ℝ) 0 := by
    rw [finalizeMatch_ranking1_elo, hwin]
    norm_num [matchP1Loses]
    rw [if_neg (by decide)]
  have hcastA : ((rankingZeroA.elo : ℤ) : ℝ) = 0 := by norm_num [rankingZeroA]
  have hcastB : ((rankingZeroB.elo : ℤ) : ℝ) = 0 := by norm_num [rankingZeroB]
  have helo2 : (finalizeMatch matchP1Loses rankingZeroA rankingZeroB 60000).ranking1.elo = -16 := by
    rw [helo, hcastA, hcastB, hchange]
    norm_num [rankingZeroA]
  refine ⟨helo2, by rw [helo2]; norm_num, ?_⟩
  rw [calculateNewRating, hchange, jsRound]
  have harg : (0 : ℝ) + ((-16 : ℤ) : ℝ) + 1 / 2 = -31 / 2 := by norm_num
  rw [harg, hfloor]
  norm_num

/-- Claim C6 (code bug evaluation): finalizing the S1 match 90 seconds after
creation persists `matchDuration = 60` — the fallback constant, because the
pre-update snapshot's `completedAt` is null in every reachable finalization —
whereas `floor((completedAt - createdAt) / 1000)` at the finalization time
90000 ms would be 90. -/
theorem finalizeMatch_duration_constant :
    (finalizeMatch matchS1 rankingZeroA rankingZeroB 90000).matchDuration = 60 ∧
    Int.fdiv (90000 - matchS1.createdAt) 1000 = 90 ∧ (60 : ℤ) ≠ 90 := by
  refine ⟨rfl, by decide, by decide⟩

/-- The two players' expected scores sum to 1. -/
theorem getExpectedScore_add_swap (p o : ℝ) :
    getExpectedScore p o + getExpectedScore o p = 1 := by
  have key : ((p - o) / 400 : ℝ) = -((o - p) / 400) := by ring
  rw [getExpectedScore, getExpectedScore, key,
    Real.rpow_neg (by norm_num : (0 : ℝ) ≤ 10)]
  have ht : (0 : ℝ) < (10 : ℝ) ^ ((o - p) / 400) :=
    Real.rpow_pos_of_pos (by norm_num) _
  set t := (10 : ℝ) ^ ((o - p) / 400) with htdef
  have h1 : (1 + t) ≠ 0 := by positivity
  have h2 : t ≠ 0 := ne_of_gt ht
  field_simp
  ring

/-- For integer ratings, 32 times the expected score is never of the form
`j + 1/2`: if it were, `10 ^ ((o - p) / 400)` would be a ratio of odd
integers whose 400th power is a power of 10, forcing `o = p`, where the
value is 16. -/
theorem getExpectedScore_int_ne (p o j : ℤ) :
    32 * getExpectedScore (p : ℝ) (o : ℝ) ≠ (j : ℝ) + 1 / 2 := by
  intro hcontra
  have hd : ((o : ℝ) - (p : ℝ)) = ((o - p : ℤ) : ℝ) := by push_cast; ring
  set d : ℤ := o - p with hddef
  set t : ℝ := (10 : ℝ) ^ (((d : ℤ) : ℝ) / 400) with htdef
  have ht : 0 < t := Real.rpow_pos_of_pos (by norm_num) _
  have h1t : (0 : ℝ) < 1 + t := by linarith
  have hne : (1 + t) ≠ 0 := ne_of_gt h1t
  have hE : getExpectedScore (p : ℝ) (o : ℝ) = 1 / (1 + t) := by
    rw [getExpectedScore, hd]
  rw [hE, mul_one_div] at hcontra
  have h32 : (32 : ℝ) = ((j : ℝ) + 1 / 2) * (1 + t) := (div_eq_iff hne).mp hcontra
  set aZ : ℤ := 63 - 2 * j with haZ
  set bZ : ℤ := 2 * j + 1 with hbZdef
  set aR : ℝ := ((aZ : ℤ) : ℝ) with haR
  set bR : ℝ := ((bZ : ℤ) : ℝ) with hbR
  have haRj : aR = 63 - 2 * (j : ℝ) := by rw [haR, haZ]; push_cast; ring
  have hbRj : bR = 2 * (j : ℝ) + 1 := by rw [hbR, hbZdef]; push_cast; ring
  have hbZ0 : bZ ≠ 0 := by rw [hbZdef]; omega
  have hbR0 : bR ≠ 0 := by
    rw [hbR]
    exact Int.cast_ne_zero.mpr hbZ0
  have htb : t * bR = aR := by
    rw [haRj, hbRj]
    linear_combination (-2 : ℝ) * h32
  have ht_eq : t = aR / bR := by
    rw [eq_div_iff hbR0]
    exact htb
  have hpow : t ^ (400 : ℕ) = (10 : ℝ) ^ (d : ℤ) := by
    have harg : (((d : ℤ) : ℝ) / 400) * ((400 : ℕ) : ℝ) = ((d : ℤ) : ℝ) := by
      push_cast
      field_simp
    rw [htdef, ← Real.rpow_natCast ((10 : ℝ) ^ (((d : ℤ) : ℝ) / 400)) 400,
      ← Real.rpow_mul (by norm_num : (0 : ℝ) ≤ 10), harg, Real.rpow_intCast]
  have hmul : aR ^ (400 : ℕ) = (10 : ℝ) ^ (d : ℤ) * bR ^ (400 : ℕ) := by
    have hp := hpow
    rw [ht_eq, div_pow] at hp
    exact (div_eq_iff (pow_ne_zero 400 hbR0)).mp hp
  have hoddA : Odd aZ := ⟨31 - j, by omega⟩
  have hoddB : Odd bZ := ⟨j, by omega⟩
  rcases lt_trichotomy d 0 with hdneg | hdzero | hdpos
  · -- d < 0 : aZ^400 * 10^mexp = bZ^400 with mexp ≥ 1; even = odd
    set mexp : ℕ := (-d).toNat with hm
    have hmpos : mexp ≠ 0 := by
      rw [hm]
      omega
    have hdm : (d : ℤ) = -(mexp : ℤ) := by
      rw [hm]
      omega
    have hzp : (10 : ℝ) ^ (d : ℤ) = ((10 : ℝ) ^ mexp)⁻¹ := by
      rw [hdm, zpow_neg, zpow_natCast]
    have h10 : ((10 : ℝ) ^ mexp) ≠ 0 := by positivity
    have hmulR : aR ^ (400 : ℕ) * (10 : ℝ) ^ mexp = bR ^ (400 : ℕ) := by
      rw [hmul, hzp]
      rw [mul_comm (((10 : ℝ) ^ mexp)⁻¹) (bR ^ (400 : ℕ)), mul_assoc,
        inv_mul_cancel₀ h10, mul_one]
    have hZ : aZ ^ (400 : ℕ) * 10 ^ mexp = bZ ^ (400 : ℕ) := by
      have hcast : ((aZ ^ (400 : ℕ) * 10 ^ mexp : ℤ) : ℝ) =
          ((bZ ^ (400 : ℕ) : ℤ) : ℝ) := by
        push_cast
        rw [← haR, ← hbR]
        exact hmulR
      exact_mod_cast hcast
    have hodd : Odd (bZ ^ (400 : ℕ)) := hoddB.pow
    have heven : Even (aZ ^ (400 : ℕ) * 10 ^ mexp) :=
      (Int.even_pow.mpr ⟨by decide, hmpos⟩).mul_left _
    rw [hZ] at heven
    exact (Int.not_odd_iff_even.mpr heven) hodd
  · -- d = 0 : t = 1, so bZ = aZ, i.e. 2j + 1 = 63 - 2j, impossible over ℤ
    have ht1 : t = 1 := by
      rw [htdef, hdzero]
      norm_num
    rw [ht1, one_mul] at htb
    have hab : bZ = aZ := by
      have : ((bZ : ℤ) : ℝ) = ((aZ : ℤ) : ℝ) := by rw [← haR, ← hbR]; exact htb
      exact_mod_cast this
    rw [hbZdef, haZ] at hab
    omega
  · -- d > 0 : aZ^400 = 10^mexp * bZ^400; odd = even
    set mexp : ℕ := d.toNat with hm
    have hmpos : mexp ≠ 0 := by
      rw [hm]
      omega
    have hdm : (d : ℤ) = (mexp : ℤ) := by
      rw [hm]
      omega
    have hzp : (10 : ℝ) ^ (d : ℤ) = (10 : ℝ) ^ mexp := by
      rw [hdm, zpow_natCast]
    have hZ : aZ ^ (400 : ℕ) = 10 ^ mexp * bZ ^ (400 : ℕ) := by
      have hcast : ((aZ ^ (400 : ℕ) : ℤ) : ℝ) =
          ((10 ^ mexp * bZ ^ (400 : ℕ) : ℤ) : ℝ) := by
        push_cast
        rw [← haR, ← hbR]
        rw [← hzp]
        exact hmul
      exact_mod_cast hcast
    have hodd : Odd (aZ ^ (400 : ℕ)) := hoddA.pow
    have heven : Even ((10 : ℤ) ^ mexp * bZ ^ (400 : ℕ)) :=
      (Int.even_pow.mpr ⟨by decide, hmpos⟩).mul_right _
    rw [← hZ] at heven
    exact (Int.not_odd_iff_even.mpr heven) hodd

/-- If `y + 1/2` is not an integer, the round-half-up values of `y` and `-y`
cancel. -/
theorem floor_pair_eq_zero (y : ℝ) (h : ∀ j : ℤ, y + 1 / 2 ≠ (j : ℝ)) :
    ⌊y + 1 / 2⌋ + ⌊-y + 1 / 2⌋ = 0 := by
  have h1 : (⌊y + 1 / 2⌋ : ℝ) < y + 1 / 2 :=
    lt_of_le_of_ne (Int.floor_le _) (fun he => h ⌊y + 1 / 2⌋ he.symm)
  have h2 : y + 1 / 2 < ⌊y + 1 / 2⌋ + 1 := Int.lt_floor_add_one _
  have h3 : ⌊-y + 1 / 2⌋ = -⌊y + 1 / 2⌋ := by
    rw [Int.floor_eq_iff]
    constructor
    · push_cast
      linarith
    · push_cast
      linarith
  rw [h3]
  omega

/-- Elo conservation for `calculateEloChange` at integer ratings and a
result in `{0, 1/2, 1}`: the two deltas cancel exactly. -/
theorem calculateEloChange_conservation (p o : ℤ) (r : ℝ)
    (hr : r = 0 ∨ r = 1 / 2 ∨ r = 1) :
    calculateEloChange (p : ℝ) (o : ℝ) r +
      calculateEloChange (o : ℝ) (p : ℝ) (1 - r) = 0 := by
  have hswap : getExpectedScore (o : ℝ) (p : ℝ) =
      1 - getExpectedScore (p : ℝ) (o : ℝ) := by
    have := getExpectedScore_add_swap (p : ℝ) (o : ℝ)
    linarith
  rw [calculateEloChange, calculateEloChange, jsRound, jsRound, hswap, K_FACTOR]
  have harg : (32 : ℝ) * (1 - r - (1 - getExpectedScore (p : ℝ) (o : ℝ))) =
      -(32 * (r - getExpectedScore (p : ℝ) (o : ℝ))) := by ring
  rw [harg]
  apply floor_pair_eq_zero
  intro j hj
  rcases hr with h0 | h5 | h1
  · subst h0
    exact getExpectedScore_int_ne p o (-j) (by push_cast; linarith [hj])
  · subst h5
    exact getExpectedScore_int_ne p o (16 - j) (by push_cast; linarith [hj])
  · subst h1
    exact getExpectedScore_int_ne p o (32 - j) (by push_cast; linarith [hj])

/-- The Elo delta fields of `finalizeMatch`, by definitional unfolding. -/
theorem finalizeMatch_eloChange_eq (m : PvPMatchDoc) (r1 r2 : PvPRanking)
    (now : ℤ) :
    (finalizeMatch m r1 r2 now).player1EloChange =
      calculateEloChange (r1.elo : ℝ) (r2.elo : ℝ)
        (if (finalizeMatch m r1 r2 now).winnerId = some m.player1Id then 1
         else if (finalizeMatch m r1 r2 now).winnerId = some m.player2Id then 0
         else 0.5) ∧
    (finalizeMatch m r1 r2 now).player2EloChange =
      calculateEloChange (r2.elo : ℝ) (r1.elo : ℝ)
        (if (finalizeMatch m r1 r2 now).winnerId = some m.player2Id then 1
         else if (finalizeMatch m r1 r2 now).winnerId = some m.player1Id then 0
         else 0.5) := ⟨rfl, rfl⟩

/-- Claim C4: for every finalized match with distinct players, the two Elo
deltas computed from the pre-match rating snapshot sum to zero — they are
negatives of each other (conservation modulo the shared rounding). -/
theorem finalizeMatch_elo_conservation (m : PvPMatchDoc) (r1 r2 : PvPRanking)
    (now : ℤ) (hne : m.player1Id ≠ m.player2Id) :
    (finalizeMatch m r1 r2 now).player1EloChange +
      (finalizeMatch m r1 r2 now).player2EloChange = 0 ∧
    (finalizeMatch m r1 r2 now).player2EloChange =
      -(finalizeMatch m r1 r2 now).player1EloChange := by
  obtain ⟨hp1, hp2⟩ := finalizeMatch_eloChange_eq m r1 r2 now
  have hsum : (finalizeMatch m r1 r2 now).player1EloChange +
      (finalizeMatch m r1 r2 now).player2EloChange = 0 := by
    have hcases : (finalizeMatch m r1 r2 now).winnerId = some m.player1Id ∨
        (finalizeMatch m r1 r2 now).winnerId = some m.player2Id ∨
        (finalizeMatch m r1 r2 now).winnerId = none := by
      rw [finalizeMatch_winnerId_eq]
      split_ifs <;> simp
    rcases hcases with hw | hw | hw
    · rw [hp1, hp2, hw, if_pos rfl,
        if_neg (fun h => hne (Option.some.inj h)), if_pos rfl]
      have hc := calculateEloChange_conservation r1.elo r2.elo 1
        (Or.inr (Or.inr rfl))
      have harg : (1 : ℝ) - 1 = 0 := by norm_num
      rw [harg] at hc
      exact hc
    · rw [hp1, hp2, hw, if_neg (fun h => hne (Option.some.inj h).symm),
        if_pos rfl, if_pos rfl]
      have hc := calculateEloChange_conservation r1.elo r2.elo 0 (Or.inl rfl)
      have harg : (1 : ℝ) - 0 = 1 := by norm_num
      rw [harg] at hc
      exact hc
    · rw [hp1, hp2, hw, if_neg (fun h => Option.noConfusion h),
        if_neg (fun h => Option.noConfusion h),
        if_neg (fun h => Option.noConfusion h),
        if_neg (fun h => Option.noConfusion h)]
      have hc := calculateEloChange_conservation r1.elo r2.elo (1 / 2)
        (Or.inr (Or.inl rfl))
      have harg : (1 : ℝ) - 1 / 2 = 1 / 2 := by norm_num
      rw [harg] at hc
      have h05 : (0.5 : ℝ) = 1 / 2 := by norm_num
      rw [h05]
      exact hc
  exact ⟨hsum, by omega⟩

/-- Witness for C4 at scenario S2 (a draw between two 1500-rated players). -/
theorem finalizeMatch_elo_conservation_witness :
    (finalizeMatch matchS2 ranking1500A ranking1500B 61000).player1EloChange +
      (finalizeMatch matchS2 ranking1500A ranking1500B 61000).player2EloChange = 0 :=
  (finalizeMatch_elo_conservation matchS2 ranking1500A ranking1500B 61000
    (by decide)).1
